import Mathlib

/-!
Verification of the PDF-conversion HTTP service against its specification.

The repository holds two variants of the same single-endpoint pipeline:
  * `src/linux/server.py`          — handlers `health` and `convert` (Flask)
  * `src/linux remake/app.py`      — handlers `convert` and `health` (Flask)

We shallowly embed both request handlers as pure Lean functions.  A handler
takes the parsed multipart request, the path of the per-request temporary
directory handed out by `tempfile.TemporaryDirectory()`, and a description of
how the external converter process would behave on this input, and returns the
HTTP response together with the ordered trace of filesystem/process effects the
Python code performs.  Python strings that undergo filename surgery are
embedded as `List Char`; fixed message strings stay `String`.
-/

/-- Bytes of an uploaded or produced file. -/
abbrev Bytes := List Nat

/-- A Python string that is manipulated character-wise (filenames, paths). -/
abbrev FName := List Char

/-- Coerce a literal to a character list. -/
def str (s : String) : FName := s.toList

/-- One part of a multipart upload: `werkzeug` FileStorage with its declared
filename, declared MIME content type and content bytes. -/
structure UploadFile where
  filename : FName
  contentType : String
  content : Bytes
deriving DecidableEq

/-- A `POST /convert` request: either it carries a file part under the field
name `file` or it does not (`'file' not in request.files`). -/
structure Request where
  file : Option UploadFile
deriving DecidableEq

/-- Behaviour of the external converter `/app/pdf2csv.sh` on this request:
how long it would run, its exit code, its captured (already decoded) output
streams, whether it writes the expected output file, and that file's bytes.
The converter is an opaque external collaborator, so the handlers are
parameterised over this behaviour. -/
structure ConverterBehavior where
  runtimeSeconds : Nat
  exitCode : Nat
  combinedOutput : String
  stdoutText : String
  stderrText : String
  writesOutput : Bool
  outputBytes : Bytes
deriving DecidableEq

/-- Filesystem and process effects a handler performs, in order. -/
inductive Event where
  | mkTempDir (dir : FName)
  | writeFile (path : FName) (content : Bytes)
  | spawn (argv : List FName) (timeoutSeconds : Option Nat) (cwd : Option FName)
  | killChild
  | removeTree (dir : FName)
deriving DecidableEq

/-- The HTTP response a handler returns: either a `jsonify` body (status plus
field/value pairs in order) or a `send_file` body (status, file bytes,
mimetype, download filename, attachment flag). -/
inductive HttpResp where
  | json (status : Nat) (fields : List (String × String))
  | file (status : Nat) (body : Bytes) (mimetype : String)
      (downloadName : FName) (asAttachment : Bool)
deriving DecidableEq

/-- HTTP status code of a response. -/
def HttpResp.status : HttpResp → Nat
  | .json s _ => s
  | .file s _ _ _ _ => s

/-- Look up a field of a `jsonify` response body. -/
def HttpResp.jsonField (r : HttpResp) (k : String) : Option String :=
  match r with
  | .json _ fields => (fields.find? (fun kv => kv.1 == k)).map (fun kv => kv.2)
  | .file _ _ _ _ _ => none

/-- Download filename of a `send_file` response, if any. -/
def HttpResp.dlName : HttpResp → Option FName
  | .json _ _ => none
  | .file _ _ _ n _ => some n

/-- Holds of `'/'`-free characters; `os.sep` on the target platform is `/`. -/
def notSep (c : Char) : Bool := if c = '/' then false else true

/-- Holds of non-`'.'` characters. -/
def notDot (c : Char) : Bool := if c = '.' then false else true

/-- Characters stripped from both ends by `secure_filename`'s `.strip("._")`. -/
def stripChar (c : Char) : Bool := if c = '.' then true else if c = '_' then true else false

/-- Python `os.path.basename`: everything after the last `/` (POSIX). -/
def basename (s : FName) : FName := (s.reverse.takeWhile notSep).reverse

/-- Python `s.rsplit('.', 1)[0]`: everything before the last `.`, or the whole
string when there is no `.`. -/
def rsplitDotRoot (s : FName) : FName :=
  if '.' ∈ s then ((s.reverse.dropWhile notDot).tail).reverse else s

/-- Python `os.path.splitext(p)[0]` (POSIX `posixpath`): split the basename at its
last `.`, unless the characters before that `.` in the basename are all `.`
(leading-dot files are not split); the directory part is kept. -/
def splitextRoot (p : FName) : FName :=
  let base := (p.reverse.takeWhile notSep).reverse
  let dir := p.take (p.length - base.length)
  if '.' ∈ base then
    let root := ((base.reverse.dropWhile notDot).tail).reverse
    if root.any notDot then dir ++ root else p
  else p

/-- Characters kept by `werkzeug`'s `secure_filename` filter, the regular
expression class `[A-Za-z0-9_.-]`. -/
def sfAllowed (c : Char) : Bool :=
  c.isAlpha || c.isDigit || c = '_' || c = '.' || c = '-'

/-- The `werkzeug.utils.secure_filename` sanitizer, embedded for ASCII filenames (on ASCII
input the initial NFKD-normalise/ASCII-encode round trip is the identity):
replace `os.sep` (`/`; `altsep` is `None` on POSIX) by a space, split on
whitespace runs discarding empties, join with `_`, delete every character
outside `[A-Za-z0-9_.-]`, then strip `.` and `_` from both ends.  (The
Windows reserved-device-name special case does not apply on POSIX.) -/
def secure_filename (s : FName) : FName :=
  let spaced := s.map (fun c => if c = '/' then ' ' else c)
  let words := (spaced.splitOnP (fun c => c.isWhitespace)).filter (fun w => !w.isEmpty)
  let joined := List.intercalate ['_'] words
  let cleaned := joined.filter sfAllowed
  ((cleaned.dropWhile stripChar).reverse.dropWhile stripChar).reverse

/-- Python `name.lower().endswith('.pdf')`. -/
def endsWithPdfCI (s : FName) : Bool :=
  (str ".pdf").isSuffixOf (s.map Char.toLower)

/-- Mimetype that Flask's `send_file` derives (via `mimetypes.guess_type`)
from the download filename when no explicit mimetype is given, restricted to
the extensions this service can produce. -/
def guessMimetype (name : FName) : String :=
  if (str ".csv").isSuffixOf name then "text/csv"
  else if (str ".txt").isSuffixOf name then "text/plain; charset=utf-8"
  else "application/octet-stream"

/-- The `convert` handler of `src/linux/server.py`, embedded line by line.
`tmpdir` is the fresh directory produced by `tempfile.TemporaryDirectory()`;
such paths are absolute, non-empty and do not end in a separator, so
`os.path.join(tmpdir, name)` is `tmpdir ++ "/" ++ name`.  The
`subprocess.check_output(cmd, stderr=subprocess.STDOUT, timeout=120)` call
raises `TimeoutExpired` (killing the child) when the converter runs longer
than 120 seconds, and `CalledProcessError` on a non-zero exit; `e.output` is
the combined stdout/stderr.  The `with` block removes `tmpdir` recursively on
every exit path. -/
def server_convert (req : Request) (tmpdir : FName) (conv : ConverterBehavior) :
    HttpResp × List Event :=
  match req.file with
  | none => (.json 400 [("error", "no file part")], [])
  | some f =>
    if f.filename = [] then (.json 400 [("error", "empty filename")], [])
    else
      let inPath := tmpdir ++ '/' :: str "input.pdf"
      let outPath := tmpdir ++ '/' :: str "output.csv"
      let pre := [Event.mkTempDir tmpdir, Event.writeFile inPath f.content,
        Event.spawn [str "/app/pdf2csv.sh", inPath, outPath] (some 120) none]
      if conv.runtimeSeconds > 120 then
        (.json 504 [("error", "conversion timeout")],
          pre ++ [Event.killChild, Event.removeTree tmpdir])
      else if conv.exitCode ≠ 0 then
        (.json 500 [("error", "conversion failed"), ("details", conv.combinedOutput)],
          pre ++ [Event.removeTree tmpdir])
      else if conv.writesOutput = false then
        (.json 500 [("error", "conversion produced no output")],
          pre ++ [Event.removeTree tmpdir])
      else
        let dl := rsplitDotRoot (basename f.filename) ++ str ".csv"
        (.file 200 conv.outputBytes (guessMimetype dl) dl true,
          pre ++ [Event.removeTree tmpdir])

/-- The `convert` handler of `src/linux remake/app.py`, embedded line by line.
The upload name is passed through `secure_filename` and must end in `.pdf`
case-insensitively; the sanitized name itself is the on-disk filename inside
`tmpdir`.  `subprocess.run([script, pdf_path], check=True, cwd=tmpdir, ...)`
is given no `timeout` argument, so the call waits for the child however long
it runs; only `CalledProcessError` is handled. -/
def app_convert (req : Request) (tmpdir : FName) (conv : ConverterBehavior) :
    HttpResp × List Event :=
  match req.file with
  | none => (.json 400 [("error", "no file provided")], [])
  | some f =>
    if f.filename = [] then (.json 400 [("error", "empty filename")], [])
    else
      let filename := secure_filename f.filename
      if endsWithPdfCI filename = false then
        (.json 400 [("error", "only pdf files are supported")], [])
      else
        let pdfPath := tmpdir ++ '/' :: filename
        let pre := [Event.mkTempDir tmpdir, Event.writeFile pdfPath f.content,
          Event.spawn [str "/app/pdf2csv.sh", pdfPath] none (some tmpdir)]
        if conv.exitCode ≠ 0 then
          (.json 500 [("error", "conversion failed"), ("stdout", conv.stdoutText),
            ("stderr", conv.stderrText)], pre ++ [Event.removeTree tmpdir])
        else
          let csvPath := splitextRoot pdfPath ++ str ".csv"
          if conv.writesOutput = false then
            (.json 500 [("error", "csv not produced")], pre ++ [Event.removeTree tmpdir])
          else
            (.file 200 conv.outputBytes "text/csv" (basename csvPath) true,
              pre ++ [Event.removeTree tmpdir])

/-- The `health` handler, identical in both variants:
`return jsonify({'status': 'ok'})` — a constant 200 response with no
effects.  The argument models the (ignored) incoming request. -/
def health (_req : Unit) : HttpResp × List Event :=
  (.json 200 [("status", "ok")], [])

/-! ### Concrete inputs shared by witnesses and counterexamples -/

/-- A temporary directory path as produced by `tempfile.TemporaryDirectory()`. -/
def tmp0 : FName := str "/tmp/tmpabc123"

/-- A converter run that finishes quickly, exits 0 and writes the output file. -/
def convOk : ConverterBehavior := ⟨3, 0, "", "", "", true, [104, 105]⟩

/-- A converter run that would need 100000 seconds before exiting 0. -/
def convSlow : ConverterBehavior := ⟨100000, 0, "", "", "", true, [104]⟩

/-- A request uploading `doc.txt` with a non-PDF content type. -/
def reqTxt : Request := ⟨some ⟨str "doc.txt", "text/plain", [37, 80]⟩⟩

/-- A request uploading `report.pdf` declared as `application/pdf`. -/
def reqPdf : Request := ⟨some ⟨str "report.pdf", "application/pdf", [37, 80, 68, 70]⟩⟩

/-- A request uploading `other.pdf`. -/
def reqPdf2 : Request := ⟨some ⟨str "other.pdf", "application/pdf", [1]⟩⟩

/-- A request with no `file` part. -/
def reqNone : Request := ⟨none⟩

/-- Recognise converter-invocation events in a trace. -/
def isSpawn : Event → Bool
  | .spawn _ _ _ => true
  | _ => false

/-- The on-disk paths a trace writes to. -/
def writePaths (t : List Event) : List FName :=
  t.filterMap (fun e => match e with | .writeFile p _ => some p | _ => none)

/-! ### Lemmas about the embedded filename helpers -/

theorem notSep_eq_true {c : Char} (h : c ≠ '/') : notSep c = true := by
  simp [notSep, h]

theorem notDot_eq_true {c : Char} (h : c ≠ '.') : notDot c = true := by
  simp [notDot, h]

theorem takeWhile_append_all {q : Char → Bool} (l : FName) (x : Char) (r : FName)
    (hl : ∀ c ∈ l, q c = true) (hx : q x = false) :
    (l ++ x :: r).takeWhile q = l := by
  induction l with
  | nil => simp [List.takeWhile_cons, hx]
  | cons a as ih =>
    have ha : q a = true := hl a (by simp)
    simp only [List.cons_append, List.takeWhile_cons, ha, if_true]
    exact congrArg (a :: ·) (ih (fun c hc => hl c (by simp [hc])))

theorem dropWhile_append_all {q : Char → Bool} (l : FName) (x : Char) (r : FName)
    (hl : ∀ c ∈ l, q c = true) (hx : q x = false) :
    (l ++ x :: r).dropWhile q = x :: r := by
  induction l with
  | nil => simp [List.dropWhile_cons, hx]
  | cons a as ih =>
    have ha : q a = true := hl a (by simp)
    simp only [List.cons_append, List.dropWhile_cons, ha, if_true]
    exact ih (fun c hc => hl c (by simp [hc]))

/-- Every character of `basename s` occurs in `s`. -/
theorem mem_basename {c : Char} {s : FName} (h : c ∈ basename s) : c ∈ s := by
  unfold basename at h
  rw [List.mem_reverse] at h
  have h2 := (List.takeWhile_prefix notSep).sublist.subset h
  exact List.mem_reverse.mp h2

/-- Python `os.path.basename` never contains a path separator. -/
theorem sep_not_mem_basename (s : FName) : '/' ∉ basename s := by
  intro h
  unfold basename at h
  rw [List.mem_reverse] at h
  have h2 := List.mem_takeWhile_imp h
  simp [notSep] at h2

/-- Every character of `rsplitDotRoot s` occurs in `s`. -/
theorem mem_rsplitDotRoot {c : Char} {s : FName} (h : c ∈ rsplitDotRoot s) : c ∈ s := by
  unfold rsplitDotRoot at h
  split at h
  · rw [List.mem_reverse] at h
    have h1 : c ∈ (s.reverse.dropWhile notDot) := List.mem_of_mem_tail h
    have h2 := (List.dropWhile_suffix notDot).sublist.subset h1
    exact List.mem_reverse.mp h2
  · exact h

/-- Every character surviving `secure_filename` is in the allowed class
`[A-Za-z0-9_.-]`. -/
theorem mem_secure_filename {c : Char} {s : FName} (h : c ∈ secure_filename s) :
    sfAllowed c = true := by
  simp only [secure_filename] at h
  rw [List.mem_reverse] at h
  have h1 := (List.dropWhile_suffix stripChar).sublist.subset h
  rw [List.mem_reverse] at h1
  have h2 := (List.dropWhile_suffix stripChar).sublist.subset h1
  exact (List.mem_filter.mp h2).2

/-- The `secure_filename` output never contains a path separator. -/
theorem sep_not_mem_secure_filename (s : FName) : '/' ∉ secure_filename s :=
  fun h => absurd (mem_secure_filename h) (by decide)

/-- Python `os.path.basename` of a path `dir/x` with separator-free `x` is `x`. -/
theorem basename_concat (d x : FName) (hx : '/' ∉ x) : basename (d ++ '/' :: x) = x := by
  unfold basename
  have hrev : (d ++ '/' :: x).reverse = x.reverse ++ '/' :: d.reverse := by
    rw [List.reverse_append, List.reverse_cons, List.append_assoc, List.singleton_append]
  rw [hrev, takeWhile_append_all _ _ _
    (fun c hc => notSep_eq_true (fun he => hx (he ▸ List.mem_reverse.mp hc)))
    (by simp [notSep]), List.reverse_reverse]

/-- A list suffix test succeeds on an appended copy of the suffix. -/
theorem isSuffixOf_append_self (l t : FName) : t.isSuffixOf (l ++ t) = true := by
  rw [List.isSuffixOf_iff_suffix]
  exact List.suffix_append l t

/-- Flask's guessed mimetype for a `.csv` download name. -/
theorem guessMimetype_csv (x : FName) : guessMimetype (x ++ str ".csv") = "text/csv" := by
  simp [guessMimetype, isSuffixOf_append_self]

theorem endsWithPdfCI_concat (stem : FName) (p1 p2 p3 : Char)
    (h1 : p1.toLower = 'p') (h2 : p2.toLower = 'd') (h3 : p3.toLower = 'f') :
    endsWithPdfCI (stem ++ '.' :: [p1, p2, p3]) = true := by
  unfold endsWithPdfCI
  rw [List.map_append]
  have hm : ('.' :: [p1, p2, p3]).map Char.toLower = str ".pdf" := by
    simp only [List.map_cons, List.map_nil, h1, h2, h3]
    rfl
  rw [hm]
  exact isSuffixOf_append_self _ _

theorem splitextRoot_concat (d stem : FName) (p1 p2 p3 : Char)
    (hstem : '/' ∉ stem) (hd1 : p1 ≠ '.') (hd2 : p2 ≠ '.') (hd3 : p3 ≠ '.')
    (hs1 : p1 ≠ '/') (hs2 : p2 ≠ '/') (hs3 : p3 ≠ '/')
    (hany : stem.any notDot = true) :
    splitextRoot (d ++ '/' :: (stem ++ '.' :: [p1, p2, p3])) = d ++ '/' :: stem := by
  have hfn : '/' ∉ stem ++ '.' :: [p1, p2, p3] := by
    intro hc
    rcases List.mem_append.mp hc with h | h
    · exact hstem h
    · simp only [List.mem_cons, List.not_mem_nil, or_false] at h
      rcases h with h | h | h | h
      · exact absurd h (by decide)
      · exact hs1 h.symm
      · exact hs2 h.symm
      · exact hs3 h.symm
  have hbase : ((d ++ '/' :: (stem ++ '.' :: [p1, p2, p3])).reverse.takeWhile notSep).reverse
      = stem ++ '.' :: [p1, p2, p3] := by
    have hrev : (d ++ '/' :: (stem ++ '.' :: [p1, p2, p3])).reverse
        = (stem ++ '.' :: [p1, p2, p3]).reverse ++ '/' :: d.reverse := by
      rw [List.reverse_append, List.reverse_cons, List.append_assoc, List.singleton_append]
    rw [hrev, takeWhile_append_all _ _ _
      (fun c hc => notSep_eq_true (fun he => hfn (he ▸ List.mem_reverse.mp hc)))
      (by simp [notSep]), List.reverse_reverse]
  unfold splitextRoot
  simp only [hbase]
  have hlen : (d ++ '/' :: (stem ++ '.' :: [p1, p2, p3])).length
      - (stem ++ '.' :: [p1, p2, p3]).length = d.length + 1 := by
    simp [List.length_append]
    omega
  have hdir : (d ++ '/' :: (stem ++ '.' :: [p1, p2, p3])).take (d.length + 1)
      = d ++ ['/'] := by
    have hsplit : d ++ '/' :: (stem ++ '.' :: [p1, p2, p3])
        = (d ++ ['/']) ++ (stem ++ '.' :: [p1, p2, p3]) := by simp
    rw [hsplit]
    exact List.take_left' (by simp)
  have hmemdot : '.' ∈ stem ++ '.' :: [p1, p2, p3] := by simp
  rw [if_pos hmemdot, hlen, hdir]
  have hroot : (((stem ++ '.' :: [p1, p2, p3]).reverse.dropWhile notDot).tail).reverse = stem := by
    have hrev2 : (stem ++ '.' :: [p1, p2, p3]).reverse = [p3, p2, p1] ++ '.' :: stem.reverse := by
      rw [List.reverse_append]
      rfl
    rw [hrev2, dropWhile_append_all _ _ _
      (by
        intro c hc
        simp only [List.mem_cons, List.not_mem_nil, or_false] at hc
        rcases hc with rfl | rfl | rfl
        · exact notDot_eq_true hd3
        · exact notDot_eq_true hd2
        · exact notDot_eq_true hd1)
      (by simp [notDot])]
    simp
  rw [hroot, if_pos hany]
  simp

/-- Timeout bounds of the spawn events in a trace. -/
def spawnTimeouts (t : List Event) : List (Option Nat) :=
  t.filterMap (fun e => match e with | .spawn _ tb _ => some tb | _ => none)

/-- C9: `GET /health` answers the constant 200 `{status: "ok"}` payload with an
empty effect trace (no side effects), and every invocation returns the same
response. -/
theorem C9_health_constant (u : Unit) :
    health u = (.json 200 [("status", "ok")], []) ∧ ∀ v, health u = health v :=
  ⟨rfl, fun _ => rfl⟩

/-- C8 fails as stated: `server.py` answers a request with no file part with
400 and detail `"no file part"`, not `"no file provided"`. -/
theorem C8_counterexample :
    (server_convert reqNone tmp0 convOk).1 = .json 400 [("error", "no file part")] ∧
    "no file part" ≠ "no file provided" :=
  ⟨rfl, by decide⟩

/-- C8 amended: a request with no file part is answered 400, with detail
`"no file provided"` by `app.py` but `"no file part"` by `server.py`; a file
part with an empty filename is answered 400 `"empty filename"` by both. -/
theorem C8_amended_validation_messages (tmp : FName) (conv : ConverterBehavior)
    (ct : String) (bs : Bytes) :
    (app_convert ⟨none⟩ tmp conv).1 = .json 400 [("error", "no file provided")] ∧
    (server_convert ⟨none⟩ tmp conv).1 = .json 400 [("error", "no file part")] ∧
    (app_convert ⟨some ⟨[], ct, bs⟩⟩ tmp conv).1 = .json 400 [("error", "empty filename")] ∧
    (server_convert ⟨some ⟨[], ct, bs⟩⟩ tmp conv).1 = .json 400 [("error", "empty filename")] :=
  ⟨rfl, rfl, rfl, rfl⟩

/-- C10: whenever either `convert` handler answers 400 (a validation failure),
its effect trace is empty: no temp directory was created, no bytes were
written, and no subprocess was spawned. -/
theorem C10_validation_before_effects (req : Request) (tmp : FName) (conv : ConverterBehavior) :
    ((server_convert req tmp conv).1.status = 400 → (server_convert req tmp conv).2 = []) ∧
    ((app_convert req tmp conv).1.status = 400 → (app_convert req tmp conv).2 = []) := by
  constructor
  · intro h
    cases hf : req.file with
    | none => simp [server_convert, hf]
    | some f =>
      simp only [server_convert, hf] at h ⊢
      by_cases hne : f.filename = []
      · simp [hne]
      · rw [if_neg hne] at h
        by_cases h1 : conv.runtimeSeconds > 120
        · rw [if_pos h1] at h
          simp [HttpResp.status] at h
        · rw [if_neg h1] at h
          by_cases h2 : conv.exitCode ≠ 0
          · rw [if_pos h2] at h
            simp [HttpResp.status] at h
          · rw [if_neg h2] at h
            by_cases h3 : conv.writesOutput = false
            · rw [if_pos h3] at h
              simp [HttpResp.status] at h
            · rw [if_neg h3] at h
              simp [HttpResp.status] at h
  · intro h
    cases hf : req.file with
    | none => simp [app_convert, hf]
    | some f =>
      simp only [app_convert, hf] at h ⊢
      by_cases hne : f.filename = []
      · simp [hne]
      · rw [if_neg hne] at h ⊢
        by_cases hpdf : endsWithPdfCI (secure_filename f.filename) = false
        · simp [hpdf]
        · rw [if_neg hpdf] at h
          by_cases h2 : conv.exitCode ≠ 0
          · rw [if_pos h2] at h
            simp [HttpResp.status] at h
          · rw [if_neg h2] at h
            by_cases h3 : conv.writesOutput = false
            · rw [if_pos h3] at h
              simp [HttpResp.status] at h
            · rw [if_neg h3] at h
              simp [HttpResp.status] at h

/-- C10 witness: the missing-file request is answered 400 and leaves an empty
effect trace. -/
theorem C10_witness : (server_convert reqNone tmp0 convOk).2 = [] :=
  (C10_validation_before_effects reqNone tmp0 convOk).1 rfl

/-- C1 fails as stated: `server.py` performs no file-type validation.  The
`doc.txt` upload — declared content type `text/plain` and extension not
`.pdf` — is handed to the converter (a spawn event occurs) and answered 200,
not 4xx. -/
theorem C1_counterexample :
    (reqTxt.file.map fun f => f.contentType) = some "text/plain" ∧
    (reqTxt.file.map fun f => endsWithPdfCI f.filename) = some false ∧
    (server_convert reqTxt tmp0 convOk).1.status = 200 ∧
    (server_convert reqTxt tmp0 convOk).2.any isSpawn = true := by
  refine ⟨rfl, by decide, rfl, by decide⟩

/-- C1 amended: only the `app.py` variant validates the file type, and it does
so on the sanitized filename alone (the declared content type is never
consulted): when `secure_filename` of the upload name does not end in `.pdf`
case-insensitively, it answers 400 `only pdf files are supported` with an
empty effect trace, so the converter is never invoked.  `server.py` performs
no type check at all. -/
theorem C1_amended_app_validates (req : Request) (f : UploadFile) (tmp : FName)
    (conv : ConverterBehavior) (hf : req.file = some f) (hne : f.filename ≠ [])
    (hpdf : endsWithPdfCI (secure_filename f.filename) = false) :
    app_convert req tmp conv = (.json 400 [("error", "only pdf files are supported")], []) ∧
    ∀ e ∈ (app_convert req tmp conv).2, isSpawn e = false := by
  have hmain : app_convert req tmp conv
      = (.json 400 [("error", "only pdf files are supported")], []) := by
    simp [app_convert, hf, hne, hpdf]
  refine ⟨hmain, ?_⟩
  rw [hmain]
  intro e he
  cases he

/-- C1 witness: the `doc.txt` upload is rejected by `app.py` with 400 and no
effects. -/
theorem C1_amended_witness :
    app_convert reqTxt tmp0 convOk
      = (.json 400 [("error", "only pdf files are supported")], []) :=
  (C1_amended_app_validates reqTxt ⟨str "doc.txt", "text/plain", [37, 80]⟩ tmp0 convOk rfl
    (by decide) (by decide)).1

/-- C2 fails as stated: `app.py` passes no `timeout` to `subprocess.run` — a
converter that would run 100000 s (far beyond any ≥ 60 s budget) is simply
awaited: the spawn event carries no timeout bound and the request is answered
200, never 504 `ConversionTimeout`. -/
theorem C2_counterexample :
    convSlow.runtimeSeconds > 60 ∧
    (app_convert reqPdf tmp0 convSlow).1.status = 200 ∧
    spawnTimeouts (app_convert reqPdf tmp0 convSlow).2 = [none] := by
  refine ⟨by decide, by decide, by decide⟩

/-- C2 amended: the `server.py` variant invokes the converter with a bounded
120 s (≥ 60 s) timeout and, when the converter would run longer, kills the
child and answers 504 `conversion timeout`; the `app.py` variant invokes the
converter with no timeout bound and never answers 504. -/
theorem C2_amended_timeout (req : Request) (f : UploadFile) (tmp : FName)
    (conv : ConverterBehavior) (hf : req.file = some f) (hne : f.filename ≠ [])
    (hslow : conv.runtimeSeconds > 120) :
    server_convert req tmp conv =
      (.json 504 [("error", "conversion timeout")],
        [Event.mkTempDir tmp, Event.writeFile (tmp ++ '/' :: str "input.pdf") f.content,
          Event.spawn [str "/app/pdf2csv.sh", tmp ++ '/' :: str "input.pdf",
            tmp ++ '/' :: str "output.csv"] (some 120) none,
          Event.killChild, Event.removeTree tmp]) ∧
    (60 ≤ 120) ∧
    (∀ req' tmp' conv', (app_convert req' tmp' conv' : HttpResp × List Event).1.status ≠ 504) ∧
    (∀ req' tmp' conv', ∀ t ∈ spawnTimeouts (app_convert req' tmp' conv').2, t = none) := by
  refine ⟨?_, by omega, ?_, ?_⟩
  · simp [server_convert, hf, hne, hslow]
  · intro req' tmp' conv'
    cases hf' : req'.file with
    | none => simp [app_convert, hf', HttpResp.status]
    | some f' =>
      simp only [app_convert, hf']
      by_cases hne' : f'.filename = []
      · simp [hne', HttpResp.status]
      · rw [if_neg hne']
        by_cases hpdf' : endsWithPdfCI (secure_filename f'.filename) = false
        · simp [hpdf', HttpResp.status]
        · rw [if_neg hpdf']
          by_cases h2 : conv'.exitCode ≠ 0
          · rw [if_pos h2]
            simp [HttpResp.status]
          · rw [if_neg h2]
            by_cases h3 : conv'.writesOutput = false
            · rw [if_pos h3]
              simp [HttpResp.status]
            · rw [if_neg h3]
              simp [HttpResp.status]
  · intro req' tmp' conv'
    cases hf' : req'.file with
    | none => simp [app_convert, hf', spawnTimeouts]
    | some f' =>
      simp only [app_convert, hf']
      by_cases hne' : f'.filename = []
      · simp [hne', spawnTimeouts]
      · rw [if_neg hne']
        by_cases hpdf' : endsWithPdfCI (secure_filename f'.filename) = false
        · simp [hpdf', spawnTimeouts]
        · rw [if_neg hpdf']
          by_cases h2 : conv'.exitCode ≠ 0
          · rw [if_pos h2]
            simp [spawnTimeouts]
          · rw [if_neg h2]
            by_cases h3 : conv'.writesOutput = false
            · rw [if_pos h3]
              simp [spawnTimeouts]
            · rw [if_neg h3]
              simp [spawnTimeouts]

/-- C2 witness: a converter needing 100000 s makes `server.py` answer 504. -/
theorem C2_amended_witness : (server_convert reqPdf tmp0 convSlow).1.status = 504 := by
  rw [(C2_amended_timeout reqPdf ⟨str "report.pdf", "application/pdf", [37, 80, 68, 70]⟩ tmp0
    convSlow rfl (by decide) (by decide)).1]
  rfl

/-- A combined subprocess output of 1001 characters. -/
def bigOut : String := String.mk (List.replicate 1001 'x')

/-- A converter run that fails (exit 1) after printing 1001 characters. -/
def convBig : ConverterBehavior := ⟨3, 1, bigOut, bigOut, bigOut, false, []⟩

/-- A converter diagnostic of 1001 characters is echoed whole into the error
response by both variants — nothing truncates it to 1000 characters. -/
theorem C3_counterexample :
    (server_convert reqPdf tmp0 convBig).1.jsonField "details" = some bigOut ∧
    (app_convert reqPdf tmp0 convBig).1.jsonField "stderr" = some bigOut ∧
    1000 < bigOut.length := by
  refine ⟨rfl, rfl, ?_⟩
  simp only [bigOut, String.length, List.length_replicate]
  omega

/-- C3 amended: on a non-zero converter exit both variants embed the captured
subprocess output in the error response in full, with no truncation at any
length: `server.py` puts the combined output under `details`, `app.py` puts
the two streams under `stdout` and `stderr`, verbatim. -/
theorem C3_amended_untruncated (req : Request) (f : UploadFile) (tmp : FName)
    (conv : ConverterBehavior) (hf : req.file = some f) (hne : f.filename ≠ [])
    (hfast : ¬ conv.runtimeSeconds > 120) (hexit : conv.exitCode ≠ 0)
    (hpdf : endsWithPdfCI (secure_filename f.filename) = true) :
    (server_convert req tmp conv).1.jsonField "details" = some conv.combinedOutput ∧
    (app_convert req tmp conv).1.jsonField "stdout" = some conv.stdoutText ∧
    (app_convert req tmp conv).1.jsonField "stderr" = some conv.stderrText := by
  have hs : (server_convert req tmp conv).1
      = .json 500 [("error", "conversion failed"), ("details", conv.combinedOutput)] := by
    simp [server_convert, hf, hne, hfast, hexit]
  have ha : (app_convert req tmp conv).1
      = .json 500 [("error", "conversion failed"), ("stdout", conv.stdoutText),
          ("stderr", conv.stderrText)] := by
    simp [app_convert, hf, hne, hexit, hpdf]
  rw [hs, ha]
  exact ⟨rfl, rfl, rfl⟩

/-- C3 witness: the 1001-character diagnostic appears verbatim. -/
theorem C3_amended_witness :
    (server_convert reqPdf tmp0 convBig).1.jsonField "details" = some bigOut :=
  (C3_amended_untruncated reqPdf ⟨str "report.pdf", "application/pdf", [37, 80, 68, 70]⟩ tmp0
    convBig rfl (by decide) (by decide) (by decide) (by decide)).1

/-- The events `server.py` emits before the outcome branches: temp dir,
upload written to the fixed `input.pdf`, converter spawned with a 120 s
timeout. -/
def serverPre (tmp : FName) (f : UploadFile) : List Event :=
  [Event.mkTempDir tmp, Event.writeFile (tmp ++ '/' :: str "input.pdf") f.content,
    Event.spawn [str "/app/pdf2csv.sh", tmp ++ '/' :: str "input.pdf",
      tmp ++ '/' :: str "output.csv"] (some 120) none]

/-- The events `app.py` emits before the outcome branches: temp dir, upload
written under its sanitized name, converter spawned with no timeout. -/
def appPre (tmp : FName) (f : UploadFile) : List Event :=
  [Event.mkTempDir tmp, Event.writeFile (tmp ++ '/' :: secure_filename f.filename) f.content,
    Event.spawn [str "/app/pdf2csv.sh", tmp ++ '/' :: secure_filename f.filename] none (some tmp)]

/-- Every `server.py` effect trace is either empty (validation failure) or the
common prelude followed by cleanup, with a kill on the timeout path. -/
theorem server_trace_cases (req : Request) (tmp : FName) (conv : ConverterBehavior) :
    (server_convert req tmp conv).2 = [] ∨
    ∃ f, req.file = some f ∧
      ((server_convert req tmp conv).2
          = serverPre tmp f ++ [Event.killChild, Event.removeTree tmp] ∨
        (server_convert req tmp conv).2 = serverPre tmp f ++ [Event.removeTree tmp]) := by
  cases hf : req.file with
  | none => left; simp [server_convert, hf]
  | some f =>
    by_cases hne : f.filename = []
    · left; simp [server_convert, hf, hne]
    · right
      refine ⟨f, rfl, ?_⟩
      simp only [server_convert, hf]
      rw [if_neg hne]
      by_cases h1 : conv.runtimeSeconds > 120
      · rw [if_pos h1]; left; rfl
      · rw [if_neg h1]
        by_cases h2 : conv.exitCode ≠ 0
        · rw [if_pos h2]; right; rfl
        · rw [if_neg h2]
          by_cases h3 : conv.writesOutput = false
          · rw [if_pos h3]; right; rfl
          · rw [if_neg h3]; right; rfl

/-- Every `app.py` effect trace is either empty (validation failure) or the
common prelude followed by cleanup. -/
theorem app_trace_cases (req : Request) (tmp : FName) (conv : ConverterBehavior) :
    (app_convert req tmp conv).2 = [] ∨
    ∃ f, req.file = some f ∧
      (app_convert req tmp conv).2 = appPre tmp f ++ [Event.removeTree tmp] := by
  cases hf : req.file with
  | none => left; simp [app_convert, hf]
  | some f =>
    by_cases hne : f.filename = []
    · left; simp [app_convert, hf, hne]
    · by_cases hpdf : endsWithPdfCI (secure_filename f.filename) = false
      · left; simp [app_convert, hf, hne, hpdf]
      · right
        refine ⟨f, rfl, ?_⟩
        simp only [app_convert, hf]
        rw [if_neg hne, if_neg hpdf]
        by_cases h2 : conv.exitCode ≠ 0
        · rw [if_pos h2]; rfl
        · rw [if_neg h2]
          by_cases h3 : conv.writesOutput = false
          · rw [if_pos h3]; rfl
          · rw [if_neg h3]; rfl

/-- A `server.py` response carries a download filename only on the 200 path,
and that name is the upload's basename with its extension replaced by
`.csv`. -/
theorem server_dl_cases (req : Request) (tmp : FName) (conv : ConverterBehavior) :
    (server_convert req tmp conv).1.dlName = none ∨
    ∃ f, req.file = some f ∧
      (server_convert req tmp conv).1.dlName
        = some (rsplitDotRoot (basename f.filename) ++ str ".csv") := by
  cases hf : req.file with
  | none => left; simp [server_convert, hf, HttpResp.dlName]
  | some f =>
    by_cases hne : f.filename = []
    · left; simp [server_convert, hf, hne, HttpResp.dlName]
    · simp only [server_convert, hf]
      rw [if_neg hne]
      by_cases h1 : conv.runtimeSeconds > 120
      · rw [if_pos h1]; left; rfl
      · rw [if_neg h1]
        by_cases h2 : conv.exitCode ≠ 0
        · rw [if_pos h2]; left; rfl
        · rw [if_neg h2]
          by_cases h3 : conv.writesOutput = false
          · rw [if_pos h3]; left; rfl
          · rw [if_neg h3]; right; exact ⟨f, rfl, rfl⟩

/-- An `app.py` response carries a download filename only on the 200 path,
and that name is the basename of the produced CSV path. -/
theorem app_dl_cases (req : Request) (tmp : FName) (conv : ConverterBehavior) :
    (app_convert req tmp conv).1.dlName = none ∨
    ∃ f, req.file = some f ∧
      (app_convert req tmp conv).1.dlName
        = some (basename (splitextRoot (tmp ++ '/' :: secure_filename f.filename)
            ++ str ".csv")) := by
  cases hf : req.file with
  | none => left; simp [app_convert, hf, HttpResp.dlName]
  | some f =>
    by_cases hne : f.filename = []
    · left; simp [app_convert, hf, hne, HttpResp.dlName]
    · by_cases hpdf : endsWithPdfCI (secure_filename f.filename) = false
      · left; simp [app_convert, hf, hne, hpdf, HttpResp.dlName]
      · simp only [app_convert, hf]
        rw [if_neg hne, if_neg hpdf]
        by_cases h2 : conv.exitCode ≠ 0
        · rw [if_pos h2]; left; rfl
        · rw [if_neg h2]
          by_cases h3 : conv.writesOutput = false
          · rw [if_pos h3]; left; rfl
          · rw [if_neg h3]; right; exact ⟨f, rfl, rfl⟩

/-- The download name `server.py` derives never contains a separator. -/
theorem sep_not_mem_server_dl (nm : FName) :
    '/' ∉ rsplitDotRoot (basename nm) ++ str ".csv" := by
  intro h
  rcases List.mem_append.mp h with h | h
  · exact sep_not_mem_basename nm (mem_rsplitDotRoot h)
  · exact absurd h (by decide)

/-- C4 fails as stated: in `app.py` the sanitized upload filename itself is the
on-disk path — the upload `report.pdf` is written to `<tmpdir>/report.pdf`,
and a different upload name (`other.pdf`) yields a different on-disk path, so
the input path is not a fixed, implementation-chosen name. -/
theorem C4_counterexample :
    Event.writeFile (tmp0 ++ '/' :: secure_filename (str "report.pdf")) [37, 80, 68, 70]
      ∈ (app_convert reqPdf tmp0 convOk).2 ∧
    secure_filename (str "report.pdf") = str "report.pdf" ∧
    writePaths (app_convert reqPdf tmp0 convOk).2
      ≠ writePaths (app_convert reqPdf2 tmp0 convOk).2 := by
  refine ⟨by decide, by decide, by decide⟩

/-- C4 amended: `server.py` writes every upload to the fixed name `input.pdf`
inside the Work Directory, while `app.py` writes it under the sanitized upload
filename — still strictly inside the Work Directory, because `secure_filename`
output contains no separator; in both variants any download filename offered
to the caller contains no directory separator. -/
theorem C4_amended_paths (req : Request) (tmp : FName) (conv : ConverterBehavior) :
    (∀ p b, Event.writeFile p b ∈ (server_convert req tmp conv).2 →
      p = tmp ++ '/' :: str "input.pdf") ∧
    (∀ p b, Event.writeFile p b ∈ (app_convert req tmp conv).2 →
      ∃ rest, p = tmp ++ '/' :: rest ∧ '/' ∉ rest) ∧
    (∀ d, (server_convert req tmp conv).1.dlName = some d → '/' ∉ d) ∧
    (∀ d, (app_convert req tmp conv).1.dlName = some d → '/' ∉ d) := by
  refine ⟨?_, ?_, ?_, ?_⟩
  · intro p b hb
    rcases server_trace_cases req tmp conv with h | ⟨f, _, h | h⟩ <;> rw [h] at hb <;>
      simp [serverPre] at hb
    · exact hb.1
    · exact hb.1
  · intro p b hb
    rcases app_trace_cases req tmp conv with h | ⟨f, _, h⟩ <;> rw [h] at hb <;>
      simp [appPre] at hb
    exact ⟨secure_filename f.filename, hb.1, sep_not_mem_secure_filename f.filename⟩
  · intro d hd
    rcases server_dl_cases req tmp conv with h | ⟨f, _, h⟩ <;> rw [h] at hd
    · cases hd
    · cases hd
      exact sep_not_mem_server_dl f.filename
  · intro d hd
    rcases app_dl_cases req tmp conv with h | ⟨f, _, h⟩ <;> rw [h] at hd
    · cases hd
    · cases hd
      exact sep_not_mem_basename _

/-- C4 witness: for the path-traversal upload `../../etc/passwd.pdf`, the
download name `app.py` derives (`etc_passwd.csv`) contains no separator. -/
theorem C4_amended_witness : '/' ∉ str "etc_passwd.csv" :=
  (C4_amended_paths ⟨some ⟨str "../../etc/passwd.pdf", "application/pdf", [1]⟩⟩ tmp0
    convOk).2.2.2 (str "etc_passwd.csv") (by decide)

/-- C5: when the converter exits 0 without writing the output file, both
variants answer 500 with a dedicated "no output" error (`conversion produced
no output` in `server.py`, `csv not produced` in `app.py`), and that error is
distinct from the `conversion failed` error either variant returns for a
non-zero exit. -/
theorem C5_missing_output_distinct (req : Request) (f : UploadFile) (tmp : FName)
    (conv : ConverterBehavior) (hf : req.file = some f) (hne : f.filename ≠ [])
    (hfast : ¬ conv.runtimeSeconds > 120) (hexit : conv.exitCode = 0)
    (hnoout : conv.writesOutput = false)
    (hpdf : endsWithPdfCI (secure_filename f.filename) = true) :
    (server_convert req tmp conv).1 = .json 500 [("error", "conversion produced no output")] ∧
    (app_convert req tmp conv).1 = .json 500 [("error", "csv not produced")] ∧
    (∀ conv' : ConverterBehavior, conv'.exitCode ≠ 0 → ¬ conv'.runtimeSeconds > 120 →
      (server_convert req tmp conv').1.jsonField "error" = some "conversion failed" ∧
      (app_convert req tmp conv').1.jsonField "error" = some "conversion failed") ∧
    "conversion produced no output" ≠ "conversion failed" ∧
    "csv not produced" ≠ "conversion failed" := by
  refine ⟨?_, ?_, ?_, by decide, by decide⟩
  · simp [server_convert, hf, hne, hfast, hexit, hnoout]
  · simp [app_convert, hf, hne, hexit, hnoout, hpdf]
  · intro conv' hexit' hfast'
    constructor
    · have hs : (server_convert req tmp conv').1
          = .json 500 [("error", "conversion failed"), ("details", conv'.combinedOutput)] := by
        simp [server_convert, hf, hne, hfast', hexit']
      rw [hs]
      rfl
    · have ha : (app_convert req tmp conv').1
          = .json 500 [("error", "conversion failed"), ("stdout", conv'.stdoutText),
              ("stderr", conv'.stderrText)] := by
        simp [app_convert, hf, hne, hexit', hpdf]
      rw [ha]
      rfl

/-- C5 witness: a concrete exit-0-no-output run yields the 500 no-output
response from `server.py`. -/
theorem C5_witness :
    (server_convert reqPdf tmp0 ⟨1, 0, "", "", "", false, []⟩).1
      = .json 500 [("error", "conversion produced no output")] :=
  (C5_missing_output_distinct reqPdf ⟨str "report.pdf", "application/pdf", [37, 80, 68, 70]⟩
    tmp0 ⟨1, 0, "", "", "", false, []⟩ rfl (by decide) (by decide) rfl rfl (by decide)).1

/-- C6: whichever exit path either handler takes — success, validation
failure, conversion failure, missing output, or timeout — if the Work
Directory was created then the trace ends by removing it recursively, and
every file write in the trace targets a path strictly inside it. -/
theorem C6_workdir_released (req : Request) (tmp : FName) (conv : ConverterBehavior) :
    ((Event.mkTempDir tmp ∈ (server_convert req tmp conv).2 →
        (server_convert req tmp conv).2.getLast? = some (Event.removeTree tmp)) ∧
      ∀ p b, Event.writeFile p b ∈ (server_convert req tmp conv).2 →
        ∃ rest, p = tmp ++ '/' :: rest) ∧
    ((Event.mkTempDir tmp ∈ (app_convert req tmp conv).2 →
        (app_convert req tmp conv).2.getLast? = some (Event.removeTree tmp)) ∧
      ∀ p b, Event.writeFile p b ∈ (app_convert req tmp conv).2 →
        ∃ rest, p = tmp ++ '/' :: rest) := by
  constructor
  · rcases server_trace_cases req tmp conv with h | ⟨f, _, h | h⟩ <;> rw [h]
    · exact ⟨fun hm => absurd hm (by simp), fun p b hm => absurd hm (by simp)⟩
    · refine ⟨fun _ => rfl, fun p b hm => ?_⟩
      simp [serverPre] at hm
      exact ⟨str "input.pdf", hm.1⟩
    · refine ⟨fun _ => rfl, fun p b hm => ?_⟩
      simp [serverPre] at hm
      exact ⟨str "input.pdf", hm.1⟩
  · rcases app_trace_cases req tmp conv with h | ⟨f, _, h⟩ <;> rw [h]
    · exact ⟨fun hm => absurd hm (by simp), fun p b hm => absurd hm (by simp)⟩
    · refine ⟨fun _ => rfl, fun p b hm => ?_⟩
      simp [appPre] at hm
      exact ⟨secure_filename f.filename, hm.1⟩

/-- C6 witness: on the timeout path the `server.py` trace still ends with the
recursive removal of the Work Directory. -/
theorem C6_witness :
    (server_convert reqPdf tmp0 convSlow).2.getLast? = some (Event.removeTree tmp0) :=
  ((C6_workdir_released reqPdf tmp0 convSlow).1).1 (by decide)

/-- C7: for a valid PDF upload (sanitized name of the shape `stem.pdf`
case-insensitively, with a non-dot character in the stem) and a converter that
exits 0 within budget and writes the Output Artifact, both variants answer 200
carrying the artifact's bytes unchanged, media type `text/csv`, and a download
filename that is the sanitized upload name with its extension replaced by
`.csv`: `server.py` derives it from the upload's basename, `app.py` from the
`secure_filename` result. -/
theorem C7_success_roundtrip (req : Request) (f : UploadFile) (tmp stem : FName)
    (p1 p2 p3 : Char) (conv : ConverterBehavior)
    (hf : req.file = some f) (hne : f.filename ≠ [])
    (hsan : secure_filename f.filename = stem ++ '.' :: [p1, p2, p3])
    (hl1 : p1.toLower = 'p') (hl2 : p2.toLower = 'd') (hl3 : p3.toLower = 'f')
    (hany : stem.any notDot = true)
    (hfast : ¬ conv.runtimeSeconds > 120) (hexit : conv.exitCode = 0)
    (hout : conv.writesOutput = true) :
    (server_convert req tmp conv).1
      = .file 200 conv.outputBytes "text/csv"
          (rsplitDotRoot (basename f.filename) ++ str ".csv") true ∧
    (app_convert req tmp conv).1
      = .file 200 conv.outputBytes "text/csv" (stem ++ str ".csv") true := by
  have hd1 : p1 ≠ '.' := fun h => by rw [h] at hl1; exact absurd hl1 (by decide)
  have hd2 : p2 ≠ '.' := fun h => by rw [h] at hl2; exact absurd hl2 (by decide)
  have hd3 : p3 ≠ '.' := fun h => by rw [h] at hl3; exact absurd hl3 (by decide)
  have hs1 : p1 ≠ '/' := fun h => by rw [h] at hl1; exact absurd hl1 (by decide)
  have hs2 : p2 ≠ '/' := fun h => by rw [h] at hl2; exact absurd hl2 (by decide)
  have hs3 : p3 ≠ '/' := fun h => by rw [h] at hl3; exact absurd hl3 (by decide)
  have hstem : '/' ∉ stem := by
    intro hm
    apply sep_not_mem_secure_filename f.filename
    rw [hsan]
    exact List.mem_append.mpr (Or.inl hm)
  have hpdf : endsWithPdfCI (secure_filename f.filename) = true := by
    rw [hsan]
    exact endsWithPdfCI_concat stem p1 p2 p3 hl1 hl2 hl3
  constructor
  · have hsrv : (server_convert req tmp conv).1
        = .file 200 conv.outputBytes
            (guessMimetype (rsplitDotRoot (basename f.filename) ++ str ".csv"))
            (rsplitDotRoot (basename f.filename) ++ str ".csv") true := by
      simp [server_convert, hf, hne, hfast, hexit, hout]
    rw [hsrv, guessMimetype_csv]
  · have happ : (app_convert req tmp conv).1
        = .file 200 conv.outputBytes "text/csv"
            (basename (splitextRoot (tmp ++ '/' :: secure_filename f.filename) ++ str ".csv"))
            true := by
      simp [app_convert, hf, hne, hexit, hout, hpdf]
    rw [happ, hsan, splitextRoot_concat tmp stem p1 p2 p3 hstem hd1 hd2 hd3 hs1 hs2 hs3 hany]
    have hb : basename ((tmp ++ '/' :: stem) ++ str ".csv") = stem ++ str ".csv" := by
      have hx : (tmp ++ '/' :: stem) ++ str ".csv" = tmp ++ '/' :: (stem ++ str ".csv") := by
        simp
      rw [hx]
      apply basename_concat
      intro hm
      rcases List.mem_append.mp hm with hm | hm
      · exact hstem hm
      · exact absurd hm (by decide)
    rw [hb]

/-- C7 witness: the `report.pdf` upload with a succeeding converter
round-trips the artifact bytes, as `text/csv`, under the name `report.csv`. -/
theorem C7_witness :
    (app_convert reqPdf tmp0 convOk).1
      = .file 200 convOk.outputBytes "text/csv" (str "report" ++ str ".csv") true :=
  (C7_success_roundtrip reqPdf ⟨str "report.pdf", "application/pdf", [37, 80, 68, 70]⟩ tmp0
    (str "report") 'p' 'd' 'f' convOk rfl (by decide) (by decide) rfl rfl rfl (by decide)
    (by decide) rfl rfl).2
